import Mathlib

/-!
Verification of the SmartDeskHelp semantic indexing and retrieval core.

Shallow embedding of the indexing/retrieval engine of this repository:

* `EmbeddingService` numerics (`embedding.ts`): mean pooling, cosine
  similarity, 384-dimensional vectors.  Components are modelled as exact
  rationals; the floating-point `Math.sqrt` used by the L2 normalisation is
  modelled as an explicit function parameter `sqrtf`, so theorems that need
  actual square-root behaviour state it as a hypothesis on `sqrtf` at the
  value where it is applied.
* `IndexerService` (`file-indexer.ts`): full bottom-up indexing, incremental
  change detection, folder-embedding updates.
* `RouterService` (`file-search.ts`): keyword extraction, hybrid file
  scoring, beam-frontier selection, filtered search with relaxation, lazy
  chunking entry point.
* `KnowledgeTreeService` (`knowledge-tree.ts`): k-means clustering, greedy
  single-path descent, item insertion and querying.  The process-wide
  `Math.random` source is modelled as an explicit stream `rng : Nat → Nat`
  passed to the operations that could consume it.

The relational store is modelled as explicit record lists (`Store`,
`KStore`); DB reads become list filters and DB writes produce a new store
value.
-/

namespace SmartDesk

/-! ## Vectors and the embedding service numerics (`embedding.ts`) -/

/-- MiniLM embedding dimension, hardcoded as `dim = 384` in `embedding.ts`. -/
def embeddingDim : ℕ := 384

instance : NeZero embeddingDim := ⟨by norm_num [embeddingDim]⟩

/-- An embedding vector: 384 rational components. -/
abbrev Vec := Fin embeddingDim → ℚ

/-- The all-zero vector, `new Float32Array(dim)`. -/
def zeroVec : Vec := fun _ => 0

/-- A vector whose only nonzero component is `c` at index 0.  Used as a
concrete test vector in witnesses and counterexamples. -/
def unitVec (c : ℚ) : Vec := fun i => if i = 0 then c else 0

/-- Dot product `Σ a[i]*b[i]` (the accumulation loop of
`EmbeddingService.cosineSimilarity`). -/
def dotProduct (a b : Vec) : ℚ := ∑ i, a i * b i

/-- Model of `EmbeddingService.cosineSimilarity`: both vectors always have length 384
in this model, so the length-mismatch branch of the source (which returns 0)
never fires and the function is the plain dot product of the two (already
normalised) vectors. -/
def cosineSimilarity (a b : Vec) : ℚ := dotProduct a b

/-- Element-wise mean of a list of vectors: the accumulation and division
loops of `EmbeddingService.meanPool` before the normalisation step. -/
def meanVec (es : List Vec) : Vec :=
  fun i => (es.map (fun e => e i)).sum / (es.length : ℚ)

/-- Squared L2 norm `Σ v[i]*v[i]` (the `norm` accumulator of `meanPool`
before `Math.sqrt` is applied). -/
def sumSq (v : Vec) : ℚ := ∑ i, v i * v i

/-- Model of `EmbeddingService.meanPool`: returns the zero vector for an empty list;
otherwise the element-wise mean, divided componentwise by
`sqrtf (sumSq mean)` when that value is positive (`if (norm > 0)` in the
source).  `sqrtf` models the external `Math.sqrt`. -/
def meanPool (sqrtf : ℚ → ℚ) (es : List Vec) : Vec :=
  if es.length = 0 then zeroVec
  else if 0 < sqrtf (sumSq (meanVec es)) then
    (fun i => meanVec es i / sqrtf (sumSq (meanVec es)))
  else meanVec es

/-! ## Keyword extraction and keyword scoring (`RouterService`) -/

/-- The stop-word set of `RouterService.extractKeywords` (the source lists
`can` twice; duplicate entries do not change membership). -/
def stopWords : List String :=
  ["the", "a", "an", "is", "are", "was", "were", "be", "been", "being",
   "have", "has", "had", "do", "does", "did", "will", "would", "could",
   "should", "may", "might", "can", "my", "your", "our", "their", "its",
   "for", "to", "of", "in", "on", "at", "by", "with", "from", "and", "or",
   "find", "open", "show", "get", "please", "can", "you", "me", "i"]

/-- A character matched by the regex class `\w` (ASCII letters, digits,
underscore). -/
def isWordChar (c : Char) : Bool := c.isAlphanum || c == '_'

/-- JS `String.prototype.toLowerCase`, implemented over the string's
character list (the queries and paths handled here are ASCII, where the JS
and Unicode lowercase maps agree). -/
def toLowerStr (s : String) : String := String.mk (s.toList.map Char.toLower)

/-- JS `String.prototype.startsWith` over character lists. -/
def startsWithStr (s p : String) : Bool := p.toList.isPrefixOf s.toList

/-- Models `query.toLowerCase().replace(/[^\w\s]/g, '')`: lowercase, then drop
every character that is neither a word character nor whitespace. -/
def cleanQuery (q : String) : String :=
  String.mk ((q.toList.map Char.toLower).filter (fun c => isWordChar c || c.isWhitespace))

/-- Split a character list at whitespace, emitting one (possibly empty)
word between consecutive separators. -/
def wordsAux : List Char → List Char → List String
  | [], acc => [String.mk acc.reverse]
  | c :: rest, acc =>
      if c.isWhitespace then String.mk acc.reverse :: wordsAux rest []
      else wordsAux rest (c :: acc)

/-- Model of `RouterService.extractKeywords`: lowercase, strip punctuation, split on
whitespace, keep words of length ≥ 2 that are not stop words.  (JS
`split(/\s+/)` merges whitespace runs; the extra empty strings produced by
the splitter here are removed by the length ≥ 2 filter, so the results
agree.) -/
def extractKeywords (q : String) : List String :=
  (wordsAux (cleanQuery q).toList []).filter
    (fun w => 2 ≤ w.length && !(stopWords.contains w))

/-- JS `String.prototype.includes` on char lists: some suffix of `hay`
starts with `nd`. -/
def containsSubstr : List Char → List Char → Bool
  | [], nd => nd.isEmpty
  | h :: t, nd => nd.isPrefixOf (h :: t) || containsSubstr t nd

/-- Models `lowerPath.includes(keyword)` as used by `calculateKeywordScore`. -/
def stringIncludes (s sub : String) : Bool := containsSubstr s.toList sub.toList

/-- Model of `RouterService.calculateKeywordScore`: 0 when there are no keywords,
otherwise the number of keywords occurring as substrings of the lowercased
path, divided by the number of keywords. -/
def calculateKeywordScore (filePath : String) (keywords : List String) : ℚ :=
  if keywords.length = 0 then 0
  else
    let lowerPath := toLowerStr filePath
    ((keywords.countP (fun k => stringIncludes lowerPath k) : ℕ) : ℚ) / (keywords.length : ℚ)

/-! ## Stable descending sort

JS `Array.prototype.sort` with comparator `(a, b) => b.score - a.score` is a
stable descending sort (stability is guaranteed by the ECMAScript spec).  It
is modelled by insertion sort that inserts each element after all elements
with a greater-or-equal score. -/

/-- Insert `x` into a descending-sorted list, after every element whose
score is ≥ `score x` (so equal-score elements keep their original order). -/
def insertDesc (score : α → ℚ) (x : α) : List α → List α
  | [] => [x]
  | y :: ys => if score y < score x then x :: y :: ys else y :: insertDesc score x ys

/-- Stable descending sort by a rational score. -/
def sortByScoreDesc (score : α → ℚ) (l : List α) : List α :=
  l.foldl (fun acc x => insertDesc score x acc) []

/-! ## The relational store (drizzle tables `semanticFolders`,
`semanticFiles`, `semanticChunks`) -/

/-- A `semanticFolders` row. -/
structure SFolder where
  id : ℕ
  parentId : Option ℕ
  path : String
  name : String
  depth : ℕ
  embedding : Option Vec

/-- A `semanticFiles` row.  Timestamps are in milliseconds. -/
structure SFile where
  id : ℕ
  folderId : ℕ
  path : String
  name : String
  extension : Option String
  embedding : Option Vec
  contentEmbedding : Option Vec
  indexedAtMs : Option ℕ
  lastModifiedMs : Option ℕ
  chunkCount : ℕ

/-- A `semanticChunks` row. -/
structure SChunk where
  fileId : ℕ
  chunkIndex : ℕ
  content : String
  embedding : Vec
  charOffset : ℕ

/-- The file-index part of the relational store. -/
structure Store where
  folders : List SFolder
  files : List SFile
  chunks : List SChunk

/-! ## Router constants (`file-search.ts`) -/

def FILENAME_WEIGHT : ℚ := 0.35
def CONTENT_WEIGHT : ℚ := 0.35
def KEYWORD_WEIGHT : ℚ := 0.30
def MIN_RESULT_SCORE : ℚ := 0.25
def FOLDER_THRESHOLD : ℚ := 0.05
def BEAM_WIDTH : ℕ := 3
def BEAM_TOLERANCE : ℚ := 0.15

/-! ## Hybrid file scoring (`RouterService.searchFilesInFolder`, also
inlined verbatim in `RouterService.findFilesWithFilters`) -/

/-- The per-file score components computed by the router. -/
structure FileScore where
  score : ℚ
  filenameScore : ℚ
  contentScore : ℚ
  keywordScore : ℚ

/-- The hybrid scoring of one file: cosine similarities against the stored
filename and content embeddings (0 when the row holds none), keyword score
against the full path, combined as
`0.35·filename + 0.35·content + 0.30·keyword` when a content embedding
exists and `0.6·filename + 0.4·keyword` otherwise. -/
def fileScores (queryVec : Vec) (keywords : List String) (f : SFile) : FileScore :=
  let filenameScore := match f.embedding with
    | some e => cosineSimilarity queryVec e
    | none => 0
  let contentScore := match f.contentEmbedding with
    | some e => cosineSimilarity queryVec e
    | none => 0
  let keywordScore := calculateKeywordScore f.path keywords
  let score := match f.contentEmbedding with
    | some _ => FILENAME_WEIGHT * filenameScore + CONTENT_WEIGHT * contentScore
        + KEYWORD_WEIGHT * keywordScore
    | none => 0.6 * filenameScore + 0.4 * keywordScore
  ⟨score, filenameScore, contentScore, keywordScore⟩

/-- The spec's formulation of the keyword component of the hybrid score:
the fraction of the query's extracted keywords that occur as a substring of
the lowercased file path, and 0 when the query has no keywords.  Stated
from the spec for comparison with the router's computation. -/
def specKeywordFraction (query path : String) : ℚ :=
  if (extractKeywords query).isEmpty then 0
  else (((extractKeywords query).filter
          (fun k => stringIncludes (toLowerStr path) k)).length : ℚ)
    / ((extractKeywords query).length : ℚ)

/-- One entry of the router's result list. -/
structure FileResult where
  id : ℕ
  path : String
  name : String
  extension : Option String
  score : ℚ
  filenameScore : ℚ
  contentScore : ℚ
  keywordScore : ℚ

/-- Build the result record for a scored file. -/
def mkFileResult (queryVec : Vec) (keywords : List String) (f : SFile) : FileResult :=
  let sc := fileScores queryVec keywords f
  ⟨f.id, f.path, f.name, f.extension, sc.score, sc.filenameScore, sc.contentScore, sc.keywordScore⟩

/-- Model of `RouterService.searchFilesInFolder`: score every file of the folder,
sort descending, keep the top 3. -/
def searchFilesInFolder (queryVec : Vec) (keywords : List String) (folderId : ℕ)
    (st : Store) : List FileResult :=
  let files := st.files.filter (fun f => f.folderId == folderId)
  let scored := files.map (mkFileResult queryVec keywords)
  (sortByScoreDesc (fun r => r.score) scored).take 3

/-! ## Beam expansion (`RouterService.findRelevantFiles`, child-folder
scoring and frontier selection) -/

/-- Child-folder score:
`(0.35 + 0.35)·cosine(query, folderEmbedding) + 0.30·keywordScore(path)`. -/
def scoreFolder (queryVec : Vec) (keywords : List String) (folder : SFolder) : ℚ :=
  let semanticScore := match folder.embedding with
    | some e => cosineSimilarity queryVec e
    | none => 0
  (FILENAME_WEIGHT + CONTENT_WEIGHT) * semanticScore
    + KEYWORD_WEIGHT * calculateKeywordScore folder.path keywords

/-- The `scoredChildren` list of `findRelevantFiles`. -/
def scoreChildFolders (queryVec : Vec) (keywords : List String)
    (children : List SFolder) : List (SFolder × ℚ) :=
  children.map (fun f => (f, scoreFolder queryVec keywords f))

/-- The frontier-selection step of `findRelevantFiles`: sort the scored
children descending, keep the top `BEAM_WIDTH` by rank plus anything within
`BEAM_TOLERANCE` of the best, then drop entries below `FOLDER_THRESHOLD`
(unless the folder has exactly one child); if nothing survives, fall back to
the single best child (`ALWAYS_EXPLORE_BEST` is `true` in the source).
`numChildren` is the length of the unscored `children` list. -/
def selectBeam (numChildren : ℕ) (scoredChildren : List (SFolder × ℚ)) :
    List (SFolder × ℚ) :=
  let sorted := sortByScoreDesc (fun p => p.2) scoredChildren
  match sorted with
  | [] => []
  | best :: _ =>
    let selected := (sorted.enum.filter
      (fun p => decide (p.1 < BEAM_WIDTH) || decide (best.2 - BEAM_TOLERANCE ≤ p.2.2))).map
        (fun p => p.2)
    let valid := selected.filter
      (fun p => decide (FOLDER_THRESHOLD ≤ p.2) || decide (numChildren = 1))
    if valid.isEmpty then [best] else valid

/-! ## Filtered search (`RouterService.findFilesWithFilters`) -/

/-- The filter arguments supplied by the caller (FunctionGemma). -/
structure SearchFilters where
  query : String
  file_types : Option (List String)
  location : Option String
  date_range : Option String

/-- The `FILE_TYPE_EXTENSIONS` table. -/
def fileTypeExtensionsTable : List (String × List String) :=
  [("pdf", ["pdf"]),
   ("image", ["jpg", "jpeg", "png", "gif", "webp", "heic", "svg", "bmp", "tiff"]),
   ("document", ["doc", "docx", "txt", "rtf", "odt", "pages", "md", "pdf"]),
   ("code", ["js", "ts", "tsx", "jsx", "py", "java", "c", "cpp", "h", "go", "rs",
             "rb", "php", "swift", "kt", "sh", "bash", "zsh", "json", "yaml",
             "yml", "toml", "xml", "html", "css", "scss", "sql"]),
   ("video", ["mp4", "mov", "avi", "mkv", "webm", "wmv", "m4v"]),
   ("audio", ["mp3", "wav", "aac", "m4a", "flac", "ogg", "wma"]),
   ("archive", ["zip", "tar", "gz", "rar", "7z", "bz2"])]

/-- The `LOCATION_PATHS` table; `home` models `homedir()`. -/
def locationPathsTable (home : String) : List (String × String) :=
  [("documents", home ++ "/Documents"),
   ("downloads", home ++ "/Downloads"),
   ("desktop", home ++ "/Desktop"),
   ("photos", home ++ "/Pictures"),
   ("projects", home ++ "/Desktop/Home/Projects"),
   ("home", home)]

/-- The `DATE_RANGE_MS` table (milliseconds). -/
def dateRangeMsTable : List (String × ℕ) :=
  [("today", 24 * 60 * 60 * 1000),
   ("week", 7 * 24 * 60 * 60 * 1000),
   ("month", 30 * 24 * 60 * 60 * 1000),
   ("year", 365 * 24 * 60 * 60 * 1000)]

/-- Record-object lookup `TABLE[key]`. -/
def lookupTable (tbl : List (String × β)) (k : String) : Option β :=
  (tbl.find? (fun p => p.1 == k)).map (fun p => p.2)

/-- The `allowedExtensions` set: present only when `file_types` is supplied,
non-empty and does not contain `"any"`; extensions are collected from the
type table and lowercased. -/
def allowedExtensionsOf (file_types : Option (List String)) : Option (List String) :=
  match file_types with
  | some ts =>
      if 0 < ts.length && !(ts.contains "any") then
        some (((ts.map (fun t => (lookupTable fileTypeExtensionsTable t).getD [])).flatten).map toLowerStr)
      else none
  | none => none

/-- The `locationPath` filter value. -/
def locationPathOf (home : String) (location : Option String) : Option String :=
  match location with
  | some l => if l != "anywhere" then lookupTable (locationPathsTable home) l else none
  | none => none

/-- The `dateCutoff` value, `now - DATE_RANGE_MS[range]`. -/
def dateCutoffOf (nowMs : ℤ) (date_range : Option String) : Option ℤ :=
  match date_range with
  | some d =>
      if d != "anytime" then (lookupTable dateRangeMsTable d).map (fun ms => nowMs - (ms : ℤ))
      else none
  | none => none

/-- Extension pre-filter (`allowedExtensions && allowedExtensions.size > 0`,
`f.extension?.toLowerCase() || ''`). -/
def applyTypeFilter (ae : Option (List String)) (files : List SFile) : List SFile :=
  match ae with
  | some exts =>
      if 0 < exts.length then
        files.filter (fun f => exts.contains (toLowerStr (f.extension.getD "")))
      else files
  | none => files

/-- Location pre-filter (`f.path.startsWith(locationPath)`). -/
def applyLocationFilter (lp : Option String) (files : List SFile) : List SFile :=
  match lp with
  | some p => files.filter (fun f => startsWithStr f.path p)
  | none => files

/-- Date pre-filter on `indexedAt` (`fileDate && fileDate >= dateCutoff`;
a row with no `indexedAt` is dropped). -/
def applyDateFilter (dc : Option ℤ) (files : List SFile) : List SFile :=
  match dc with
  | some cutoff =>
      files.filter (fun f =>
        match f.indexedAtMs with
        | some t => decide (cutoff ≤ (t : ℤ))
        | none => false)
  | none => files

/-- The scoring pass of `findFilesWithFilters` (step 3): hybrid-score the
candidate files, sort descending, keep scores ≥ `MIN_RESULT_SCORE`, return
at most 5. -/
def scoreAndRank (embedFn : String → Vec) (query : String) (files : List SFile) :
    List FileResult :=
  let keywords := extractKeywords query
  let queryVec := embedFn query
  let scored := files.map (mkFileResult queryVec keywords)
  ((sortByScoreDesc (fun r => r.score) scored).filter
    (fun r => decide (MIN_RESULT_SCORE ≤ r.score))).take 5

/-- Model of `RouterService.findFilesWithFilters`: pre-filter the file universe by
type, location and date; when the result is empty and a date cutoff was in
effect, re-filter without the date constraint; when the candidate list is
still empty, return the empty list; otherwise run the scoring pass on the
candidates.  `embedFn` models `embeddingService.embed`. -/
def findFilesWithFilters (embedFn : String → Vec) (home : String) (nowMs : ℤ)
    (filters : SearchFilters) (st : Store) : List FileResult :=
  let ae := allowedExtensionsOf filters.file_types
  let lp := locationPathOf home filters.location
  let dc := dateCutoffOf nowMs filters.date_range
  let filtered := applyDateFilter dc (applyLocationFilter lp (applyTypeFilter ae st.files))
  let relaxed :=
    if filtered.isEmpty && dc.isSome then
      applyLocationFilter lp (applyTypeFilter ae st.files)
    else filtered
  if relaxed.isEmpty then []
  else scoreAndRank embedFn filters.query relaxed

/-- The fully unfiltered scoring pass that the specification describes as
the final fallback of the filtered search ("then fall back to a fully
unfiltered pass"): the same scoring pass applied to every indexed file.
Stated from the spec so it can be compared against what
`findFilesWithFilters` actually does. -/
def specUnfilteredPass (embedFn : String → Vec) (query : String) (st : Store) :
    List FileResult :=
  scoreAndRank embedFn query st.files

/-! ## Lazy chunking entry point (`RouterService.ensureChunksExist`) -/

/-- Model of `RouterService.ensureChunksExist`: the method body begins with
`console.log('[Router] Lazy chunking DISABLED - skipping chunk generation');
return;` (marked "TEMPORARILY DISABLED ... TODO: Re-enable after Worker
Thread implementation"), so every statement after it — the chunk-count
query, extraction, embedding, chunk insertion and chunk-count update — is
dead code.  The executed function is the identity on the store. -/
def ensureChunksExist (_fileIds : List ℕ) (st : Store) : Store := st

/-! ## Full indexing (`IndexerService.indexFolderRecursive`) -/

/-- The `SKIP_PATTERNS` list of `file-indexer.ts`. -/
def SKIP_PATTERNS : List String :=
  ["node_modules", ".git", ".cache", "__pycache__", ".DS_Store",
   "venv", ".venv", "env", ".env", "virtualenv", "site-packages",
   "dist", "build", "out", ".next", ".nuxt", ".output",
   ".idea", ".vscode", ".gradle", ".m2",
   ".pnpm", ".npm", ".yarn", "vendor",
   "coverage", ".turbo", ".parcel-cache", "tmp", "temp"]

/-- The `MAX_DEPTH` of the indexer (10; the router uses its own 20). -/
def INDEXER_MAX_DEPTH : ℕ := 10

/-- Models `SKIP_PATTERNS.some((p) => folderName === p || folderName.startsWith('.'))`. -/
def skipFolder (name : String) : Bool :=
  SKIP_PATTERNS.any (fun p => name == p || startsWithStr name ".")

/-- A file as seen on disk during the walk, together with the embeddings
the external providers produce for it: `contentEmb` is the content-signature
embedding (`none` when extraction is unsupported), `filenameEmb` the
embedding of its relative path. -/
structure SrcFile where
  name : String
  contentEmb : Option Vec
  filenameEmb : Vec
  mtimeMs : ℕ

/-- A directory tree on disk. -/
inductive FSDir where
  | mk (name : String) (files : List SrcFile) (subdirs : List FSDir)

/-- The file filter of the walk: skip dotfiles and `~$` office lock files. -/
def visibleFiles (files : List SrcFile) : List SrcFile :=
  files.filter (fun f => !(startsWithStr f.name ".") && !(startsWithStr f.name "~$"))

/-- Per-file embedding used for folder aggregation: the content-signature
embedding when present, else the filename embedding. -/
def fileAggEmbedding (f : SrcFile) : Vec :=
  match f.contentEmb with
  | some c => c
  | none => f.filenameEmb

/-- A persisted `semanticFolders` row as produced by the full index (the
fields the verification uses). -/
structure FolderRow where
  name : String
  depth : ℕ
  embedding : Vec
  fileCount : ℕ

mutual

/-- Model of `IndexerService.indexFolderRecursive`: post-order walk; returns `none`
for skipped folders (depth guard, skip patterns), otherwise the persisted
rows of the subtree (children first) and the folder's aggregated embedding:
the mean pool of the per-file embeddings of its visible direct files and
the embeddings of its indexed child folders. -/
def indexFolder (sqrtf : ℚ → ℚ) : FSDir → ℕ → Option (List FolderRow × Vec)
  | .mk name files subdirs, depth =>
    if INDEXER_MAX_DEPTH < depth then none
    else if skipFolder name then none
    else
      let childResults := indexSubdirs sqrtf subdirs (depth + 1)
      let fils := visibleFiles files
      let allEmbeddings := fils.map fileAggEmbedding ++ childResults.map (fun r => r.2)
      let folderEmbedding := meanPool sqrtf allEmbeddings
      some ((childResults.map (fun r => r.1)).flatten
              ++ [⟨name, depth, folderEmbedding, fils.length⟩],
            folderEmbedding)

/-- The child loop of `indexFolderRecursive` (children returning `null` are
dropped). -/
def indexSubdirs (sqrtf : ℚ → ℚ) : List FSDir → ℕ → List (List FolderRow × Vec)
  | [], _ => []
  | d :: ds, depth =>
    match indexFolder sqrtf d depth with
    | some r => r :: indexSubdirs sqrtf ds depth
    | none => indexSubdirs sqrtf ds depth

end

/-! ## Incremental change detection (`IndexerService.indexFromRoot`) -/

/-- Models `Math.floor(ms / 1000)`: truncate a millisecond timestamp to whole
seconds. -/
def truncToSeconds (ms : ℕ) : ℕ := ms / 1000

/-- A stored `(path, lastModified)` pair read from `semanticFiles`. -/
structure StoredStat where
  path : String
  lastModifiedMs : Option ℕ

/-- An on-disk stat collected by `quickScanStats`. -/
structure CurrentStat where
  path : String
  mtimeMs : ℕ
  size : ℕ

/-- Models `f.lastModified?.getTime() || 0`. -/
def storedMtime (s : StoredStat) : ℕ := s.lastModifiedMs.getD 0

/-- Models `storedMap.get(path)` (stored paths are unique DB keys). -/
def lookupStored (stored : List StoredStat) (p : String) : Option StoredStat :=
  stored.find? (fun s => s.path == p)

/-- Models `currentFiles.has(path)`. -/
def currentHas (current : List CurrentStat) (p : String) : Bool :=
  current.any (fun c => c.path == p)

/-- The `toAdd` set: on disk but not stored. -/
def toAddOf (current : List CurrentStat) (stored : List StoredStat) : List String :=
  (current.filter (fun c => (lookupStored stored c.path).isNone)).map (fun c => c.path)

/-- The `toUpdate` set: stored, and the stored and current timestamps differ
after truncation to whole seconds. -/
def toUpdateOf (current : List CurrentStat) (stored : List StoredStat) : List String :=
  (current.filter (fun c =>
    match lookupStored stored c.path with
    | some s => truncToSeconds (storedMtime s) != truncToSeconds c.mtimeMs
    | none => false)).map (fun c => c.path)

/-- The `toRemove` set: stored but no longer on disk. -/
def toRemoveOf (current : List CurrentStat) (stored : List StoredStat) : List String :=
  (stored.filter (fun s => !(currentHas current s.path))).map (fun s => s.path)

/-- Models `changeCount = toAdd.length + toUpdate.length + toRemove.length`. -/
def changeCount (current : List CurrentStat) (stored : List StoredStat) : ℕ :=
  (toAddOf current stored).length + (toUpdateOf current stored).length
    + (toRemoveOf current stored).length

/-- What `indexFromRoot` decides to do after the diff (when the store
already holds folders). -/
inductive IndexAction where
  | noChange
  | fullReindex
  | incremental
deriving DecidableEq

/-- The decision logic of `indexFromRoot`: return early on zero changes;
full reindex when `changeCount > storedMap.size * 0.5` or the stored map is
empty; otherwise take the incremental path. -/
def decideIndexAction (current : List CurrentStat) (stored : List StoredStat) :
    IndexAction :=
  let cc := changeCount current stored
  if cc = 0 then .noChange
  else if (stored.length : ℚ) * 0.5 < (cc : ℚ) ∨ stored.length = 0 then .fullReindex
  else .incremental

/-! ## Incremental folder-embedding update
(`IndexerService.updateFolderEmbeddings`) -/

/-- Per-file embedding choice of `updateFolderEmbeddings`: content embedding
when present, else filename embedding. -/
def preferContentEmbedding (f : SFile) : Option Vec :=
  match f.contentEmbedding with
  | some c => some c
  | none => f.embedding

/-- Model of `IndexerService.updateFolderEmbeddings`, kept faithful to the source:
for each affected folder path it selects the files via
`eq(semanticFiles.path, folderPath)` — comparing each FILE row's own path
column against the FOLDER's path — looks up the folder row by path, and
only when the selected embedding list is non-empty overwrites the folder's
embedding with their mean pool. -/
def updateFolderEmbeddings (sqrtf : ℚ → ℚ) (folderPaths : List String) (st : Store) :
    Store :=
  folderPaths.foldl (fun acc folderPath =>
    let files := acc.files.filter (fun f => f.path == folderPath)
    match acc.folders.find? (fun fo => fo.path == folderPath) with
    | none => acc
    | some folder =>
      let embeddings := files.filterMap preferContentEmbedding
      if embeddings.isEmpty then acc
      else { acc with folders := acc.folders.map (fun fo =>
          if fo.id = folder.id then
            { fo with embedding := some (meanPool sqrtf embeddings) }
          else fo) }) st

/-- What the invariant stated by the spec expects a folder embedding to be
recomputed from: the embeddings of the folder's current DIRECT files
(content embedding preferred over filename embedding) plus the embeddings of
its child folders.  Stated from the spec for comparison with
`updateFolderEmbeddings`. -/
def specFolderChildrenEmbeddings (st : Store) (folder : SFolder) : List Vec :=
  (st.files.filter (fun f => f.folderId == folder.id)).filterMap preferContentEmbedding
    ++ (st.folders.filter (fun fo => fo.parentId == some folder.id)).filterMap
        (fun fo => fo.embedding)

/-! ## Knowledge tree (`knowledge-tree.ts`) -/

/-- The `MAX_LEAF_SIZE` of `CLUSTERING_CONFIG` (exceeding it after an insert
only logs "needs rebalancing"; the split is a TODO in the source). -/
def MAX_LEAF_SIZE : ℕ := 50

/-- A `knowledgeNodes` row. -/
structure KNode where
  id : ℕ
  parentId : Option ℕ
  domain : String
  depth : ℕ
  embedding : Vec
  itemCount : ℕ

/-- A `knowledgeItems` row. -/
structure KItem where
  nodeId : ℕ
  domain : String
  content : String
  embedding : Vec
  sourceType : String

/-- The knowledge part of the relational store; `nextNodeId` models the
auto-increment id column. -/
structure KStore where
  nodes : List KNode
  items : List KItem
  nextNodeId : ℕ

/-- Root nodes of a domain (`domain = d AND parentId IS NULL`). -/
def rootsOf (s : KStore) (domain : String) : List KNode :=
  s.nodes.filter (fun n => n.domain == domain && n.parentId.isNone)

/-- Children of a node (`parentId = nid`). -/
def childrenOfNode (s : KStore) (nid : ℕ) : List KNode :=
  s.nodes.filter (fun n => n.parentId == some nid)

/-- Items of a node (`nodeId = nid`). -/
def itemsOfNode (s : KStore) (nid : ℕ) : List KItem :=
  s.items.filter (fun i => i.nodeId == nid)

/-- The greedy single-path descent loop shared verbatim by
`KnowledgeTreeService.query` and `KnowledgeTreeService.addItem`: score the
current level by cosine similarity, take the best (the stable sort plus
`scored[0]` of the source picks the FIRST node of maximal score), descend
into its children until a node without children is reached.  `fuel` bounds
the `while (true)` loop; on a well-formed (acyclic) tree any fuel larger
than the tree depth gives the same result. -/
def descendToLeaf (emb : Vec) (s : KStore) : ℕ → List KNode → Option KNode
  | 0, _ => none
  | fuel + 1, currentNodes =>
    match (sortByScoreDesc (fun n => cosineSimilarity emb n.embedding) currentNodes).head? with
    | none => none
    | some best =>
      let children := childrenOfNode s best.id
      if children.isEmpty then some best
      else descendToLeaf emb s fuel children

/-- Model of `KnowledgeTreeService.addItem` (with the item's embedding `emb` already
computed by the external embedder): create a fresh root when the domain has
no tree; otherwise descend greedily to a leaf, insert the item there,
recompute only that leaf's embedding (mean pool of all its current member
items) and item count.  The `items.length > MAX_LEAF_SIZE` branch of the
source only logs — no split, no node creation. -/
def addItem (sqrtf : ℚ → ℚ) (fuel : ℕ) (emb : Vec)
    (domain content sourceType : String) (s : KStore) : Option KStore :=
  let roots := rootsOf s domain
  if roots.isEmpty then
    some { nodes := s.nodes ++ [⟨s.nextNodeId, none, domain, 0, emb, 1⟩],
           items := s.items ++ [⟨s.nextNodeId, domain, content, emb, sourceType⟩],
           nextNodeId := s.nextNodeId + 1 }
  else
    match descendToLeaf emb s fuel roots with
    | none => none
    | some leaf =>
      let newItems := s.items ++ [⟨leaf.id, domain, content, emb, sourceType⟩]
      let memberItems := newItems.filter (fun i => i.nodeId == leaf.id)
      let newEmbedding := meanPool sqrtf (memberItems.map (fun i => i.embedding))
      some { nodes := s.nodes.map (fun n =>
               if n.id = leaf.id then
                 { n with embedding := newEmbedding, itemCount := memberItems.length }
               else n),
             items := newItems,
             nextNodeId := s.nextNodeId }

/-- Model of `KnowledgeTreeService.query` (with the query embedding already
computed): greedy single-path descent to a leaf, then rank that leaf's items
by cosine similarity and return the top K.  The `rng` parameter is the
process-wide `Math.random` stream available to the service; `query` never
reads it. -/
def queryKnowledgeTree (_rng : ℕ → ℕ) (fuel : ℕ) (queryVec : Vec) (domain : String)
    (topK : ℕ) (s : KStore) : List KItem :=
  let roots := rootsOf s domain
  if roots.isEmpty then []
  else
    match descendToLeaf queryVec s fuel roots with
    | none => []
    | some leaf =>
      let items := itemsOfNode s leaf.id
      (sortByScoreDesc (fun i => cosineSimilarity queryVec i.embedding) items).take topK

/-! ## K-means clustering (`kMeansClustering` in `knowledge-tree.ts`) -/

/-- One cluster of the result. -/
structure ClusterResult where
  centroid : Vec
  itemIndices : List ℕ

/-- Minimum cosine distance (`1 - sim`) from `e` to any existing centroid;
`none` models the `Infinity` start value (never returned for the non-empty
centroid lists the algorithm uses). -/
def minDistToCentroids (centroids : List Vec) (e : Vec) : Option ℚ :=
  centroids.foldl (fun acc c =>
    let dist := 1 - cosineSimilarity e c
    match acc with
    | none => some dist
    | some m => if dist < m then some dist else some m) none

/-- The k-means++ selection scan: the first unused index whose minimum
distance to the existing centroids is strictly maximal (`maxDist` starts at
-1, `bestIdx` at 0). -/
def pickFarthest (embeddings : List Vec) (centroids : List Vec) (used : List ℕ) : ℕ :=
  (embeddings.enum.foldl (fun best p =>
    if p.1 ∈ used then best
    else
      let d := (minDistToCentroids centroids p.2).getD 0
      if best.2 < d then (p.1, d) else best) ((0 : ℕ), (-1 : ℚ))).1

/-- The `while (centroids.length < k)` seeding loop; `fuel = k` suffices. -/
def seedLoop (embeddings : List Vec) (k : ℕ) :
    ℕ → List Vec × List ℕ → List Vec × List ℕ
  | 0, st => st
  | fuel + 1, (centroids, used) =>
    if centroids.length < k then
      let idx := pickFarthest embeddings centroids used
      seedLoop embeddings k fuel (centroids ++ [embeddings.getD idx zeroVec], used ++ [idx])
    else (centroids, used)

/-- Index of the centroid with maximal cosine similarity to `e`
(`bestSim` starts at -Infinity, modelled by `none`; ties keep the first). -/
def nearestCentroid (centroids : List Vec) (e : Vec) : ℕ :=
  (centroids.enum.foldl (fun best p =>
    let sim := cosineSimilarity e p.2
    match best.2 with
    | none => (p.1, some sim)
    | some bs => if bs < sim then (p.1, some sim) else best)
    ((0 : ℕ), (none : Option ℚ))).1

/-- Centroid recomputation: mean pool of each cluster's members; clusters
with no members keep their previous centroid. -/
def recomputeCentroids (sqrtf : ℚ → ℚ) (embeddings : List Vec) (k : ℕ)
    (assignments : List ℕ) (centroids : List Vec) : List Vec :=
  (List.range k).map (fun c =>
    let cluster := (embeddings.enum.filter (fun p => assignments.getD p.1 0 == c)).map
      (fun p => p.2)
    if cluster.isEmpty then centroids.getD c zeroVec else meanPool sqrtf cluster)

/-- The assign/recompute iteration (`for iter in 0..maxIterations`): on
convergence the loop breaks after updating the assignments but BEFORE
recomputing centroids, exactly as in the source. -/
def kmeansIterate (sqrtf : ℚ → ℚ) (embeddings : List Vec) (k : ℕ) :
    ℕ → List Vec → List ℕ → List Vec × List ℕ
  | 0, centroids, assignments => (centroids, assignments)
  | fuel + 1, centroids, assignments =>
    let newAssignments := embeddings.map (nearestCentroid centroids)
    if newAssignments == assignments then (centroids, newAssignments)
    else kmeansIterate sqrtf embeddings k fuel
      (recomputeCentroids sqrtf embeddings k newAssignments centroids) newAssignments

/-- Model of `kMeansClustering`: when there are at most `k` embeddings, return one
singleton cluster per embedding with the embedding itself as centroid;
otherwise k-means++ seeding (first centroid at `rng 0 % n`, modelling
`Math.floor(Math.random() * n)`), the assign/recompute loop, and cluster
assembly (empty clusters are dropped). -/
def kMeansClustering (rng : ℕ → ℕ) (sqrtf : ℚ → ℚ) (embeddings : List Vec)
    (k maxIterations : ℕ) : List ClusterResult :=
  if embeddings.length ≤ k then
    embeddings.enum.map (fun p => ⟨p.2, [p.1]⟩)
  else
    let n := embeddings.length
    let firstIdx := rng 0 % n
    let seeded := seedLoop embeddings k k ([embeddings.getD firstIdx zeroVec], [firstIdx])
    let iterated := kmeansIterate sqrtf embeddings k maxIterations seeded.1
      (List.replicate n 0)
    (List.range k).filterMap (fun c =>
      let itemIndices := (iterated.2.enum.filter (fun p => p.2 == c)).map (fun p => p.1)
      if itemIndices.isEmpty then none
      else some ⟨iterated.1.getD c zeroVec, itemIndices⟩)

/-! ## Concrete instances used by witnesses and counterexamples -/

/-- The exact square root of 1, used where witnesses need `Math.sqrt` at a
norm of 1. -/
def sqrtOne : ℚ → ℚ := fun _ => 1

/-- C1 failing input: the folder row, with a stale zero embedding. -/
def c1Folder : SFolder := ⟨1, none, "/root", "root", 0, some zeroVec⟩

/-- C1 failing input: a file just (re)indexed inside `/root`. -/
def c1File : SFile :=
  ⟨1, 1, "/root/a.txt", "a.txt", some "txt", some (unitVec 1), none, some 0, some 7000, 0⟩

/-- C1 failing input: store state right before `updateFolderEmbeddings`. -/
def c1Store : Store := ⟨[c1Folder], [c1File], []⟩

/-- C2 failing input: a searchable file with a content embedding and a zero
chunk count. -/
def c2File : SFile :=
  ⟨7, 1, "/root/notes.md", "notes.md", some "md", some (unitVec 1), some (unitVec 1),
   some 0, some 0, 0⟩

/-- C2 failing input: store holding only that file and no chunks. -/
def c2Store : Store := ⟨[], [c2File], []⟩

/-- A deterministic stand-in for the embedding provider. -/
def c3Embed : String → Vec := fun _ => unitVec 1

/-- C3 counterexample: an indexed text file that matches the query well. -/
def c3File : SFile :=
  ⟨1, 1, "/home/u/x/budget.txt", "budget.txt", some "txt", some (unitVec 1), none,
   some 0, some 0, 0⟩

/-- C3 counterexample: the store holding only that file. -/
def c3Store : Store := ⟨[], [c3File], []⟩

/-- C3 counterexample: a type filter that excludes every indexed file while
no date-range constraint is supplied. -/
def c3Filters : SearchFilters := ⟨"budget", some ["pdf"], none, none⟩

/-- C4 query vector. -/
def c4Query : Vec := unitVec 1

/-- C4 counterexample: the higher-scoring sibling (score 1/10). -/
def c4FolderA : SFolder := ⟨1, some 0, "/r/alpha", "alpha", 1, some (unitVec (1/7))⟩

/-- C4 counterexample: the lower-scoring sibling (score 3/100, within the
0.15 tolerance of 1/10 but below the 0.05 folder threshold). -/
def c4FolderB : SFolder := ⟨2, some 0, "/r/beta", "beta", 1, some (unitVec (3/70))⟩

/-- C4 witness: sibling with score 1/10. -/
def c4wFolderA : SFolder := ⟨3, some 0, "/r/gamma", "gamma", 1, some (unitVec (1/7))⟩

/-- C4 witness: sibling with score 7/80, within tolerance and above the
folder threshold. -/
def c4wFolderB : SFolder := ⟨4, some 0, "/r/delta", "delta", 1, some (unitVec (1/8))⟩

/-- C5 witness file: filename embedding only. -/
def c5File : SFile :=
  ⟨1, 1, "/docs/budget.txt", "budget.txt", some "txt", some (unitVec 1), none,
   some 0, some 0, 0⟩

/-- C6 witness: two stored rows. -/
def c6Stored : List StoredStat := [⟨"/a", some 5000⟩, ⟨"/b", some 5000⟩]

/-- C6 witness: one on-disk file, modified (7 s vs 5 s), one removed —
2 changes > 2 · 0.5 stored files. -/
def c6Current : List CurrentStat := [⟨"/a", 7000, 10⟩]

/-- C7 witness: a single root node that is also a leaf. -/
def c7Root : KNode := ⟨0, none, "personal", 0, unitVec 1, 1⟩

/-- C7 witness: the root's existing member item. -/
def c7Item : KItem := ⟨0, "personal", "likes hiking", unitVec 1, "user"⟩

/-- C7 witness: knowledge store with one root/leaf and one item. -/
def c7Store : KStore := ⟨[c7Root], [c7Item], 1⟩

/-- C8 witness: one embedding, clustered with k = 2. -/
def c8Embeddings : List Vec := [unitVec 1]

/-! ## Helper lemmas -/

theorem dotProduct_zero_right (a : Vec) : dotProduct a zeroVec = 0 := by
  simp [dotProduct, zeroVec]

theorem dotProduct_unitVec_left (c : ℚ) (b : Vec) :
    dotProduct (unitVec c) b = c * b 0 := by
  simp [dotProduct, unitVec, ite_mul, zero_mul]

theorem unitVec_zero (c : ℚ) : unitVec c 0 = c := by
  simp [unitVec]

theorem meanVec_singleton (v : Vec) : meanVec [v] = v := by
  funext i
  simp [meanVec]

theorem sumSq_unitVec (c : ℚ) : sumSq (unitVec c) = c * c := by
  have h : ∀ i : Fin embeddingDim, unitVec c i * unitVec c i
      = if i = 0 then c * c else 0 := by
    intro i
    by_cases hi : i = 0 <;> simp [unitVec, hi]
  rw [sumSq, Finset.sum_congr rfl (fun i _ => h i), Finset.sum_ite_eq']
  simp

theorem mem_insertDesc (score : α → ℚ) (x a : α) (l : List α) :
    a ∈ insertDesc score x l ↔ a = x ∨ a ∈ l := by
  induction l with
  | nil => simp [insertDesc]
  | cons y ys ih =>
    by_cases h : score y < score x
    · simp [insertDesc, h]
    · simp [insertDesc, h, ih]
      tauto

theorem mem_foldl_insertDesc (score : α → ℚ) (l acc : List α) (a : α) :
    a ∈ l.foldl (fun acc x => insertDesc score x acc) acc ↔ a ∈ acc ∨ a ∈ l := by
  induction l generalizing acc with
  | nil => simp
  | cons x xs ih =>
    simp only [List.foldl_cons]
    rw [ih, mem_insertDesc]
    simp [List.mem_cons]
    tauto

theorem mem_sortByScoreDesc (score : α → ℚ) (l : List α) (a : α) :
    a ∈ sortByScoreDesc score l ↔ a ∈ l := by
  rw [sortByScoreDesc, mem_foldl_insertDesc]
  simp

theorem pairwise_insertDesc (score : α → ℚ) (x : α) (l : List α)
    (h : l.Pairwise (fun a b => score b ≤ score a)) :
    (insertDesc score x l).Pairwise (fun a b => score b ≤ score a) := by
  induction l with
  | nil => simp [insertDesc]
  | cons y ys ih =>
    rcases List.pairwise_cons.mp h with ⟨hy, hys⟩
    by_cases hlt : score y < score x
    · rw [insertDesc, if_pos hlt]
      refine List.Pairwise.cons ?_ h
      intro b hb
      rcases List.mem_cons.mp hb with rfl | hb
      · exact le_of_lt hlt
      · exact (hy b hb).trans (le_of_lt hlt)
    · rw [insertDesc, if_neg hlt]
      refine List.Pairwise.cons ?_ (ih hys)
      intro b hb
      rcases (mem_insertDesc score x b ys).mp hb with rfl | hb
      · exact not_lt.mp hlt
      · exact hy b hb

theorem pairwise_sortByScoreDesc (score : α → ℚ) (l : List α) :
    (sortByScoreDesc score l).Pairwise (fun a b => score b ≤ score a) := by
  have key : ∀ (l acc : List α), acc.Pairwise (fun a b => score b ≤ score a) →
      (l.foldl (fun acc x => insertDesc score x acc) acc).Pairwise
        (fun a b => score b ≤ score a) := by
    intro l
    induction l with
    | nil => intro acc h; simpa using h
    | cons x xs ih =>
      intro acc h
      simp only [List.foldl_cons]
      exact ih _ (pairwise_insertDesc score x acc h)
  exact key l [] List.Pairwise.nil

theorem head_max_sortByScoreDesc (score : α → ℚ) (l : List α) (b : α) (tl : List α)
    (h : sortByScoreDesc score l = b :: tl) :
    ∀ x ∈ sortByScoreDesc score l, score x ≤ score b := by
  have hp := pairwise_sortByScoreDesc score l
  rw [h] at hp
  rcases List.pairwise_cons.mp hp with ⟨hb, _⟩
  intro x hx
  rw [h] at hx
  rcases List.mem_cons.mp hx with rfl | hx
  · exact le_refl _
  · exact hb x hx

theorem mem_map_snd_filter_enum (p : ℕ × α → Bool) {x : α} {l : List α}
    (hx : x ∈ l) (hp : ∀ i : ℕ, p (i, x) = true) :
    x ∈ (l.enum.filter p).map Prod.snd := by
  obtain ⟨i, hi⟩ := List.mem_iff_getElem?.mp hx
  have henum : (i, x) ∈ l.enum := List.mem_enum_iff_getElem?.mpr hi
  exact List.mem_map.mpr ⟨(i, x), List.mem_filter.mpr ⟨henum, hp i⟩, rfl⟩

/-! ## Claim theorems -/

/-- C9: for a fixed knowledge tree state and a fixed query embedding, two
calls to the knowledge tree's query return the same items in the same
ranked order — the result does not depend on the `Math.random` stream (the
only source of nondeterminism available to the service), and the greedy
descent and the leaf ranking are deterministic functions of the store and
the query embedding. -/
theorem c9_query_determinism (r1 r2 : ℕ → ℕ) (fuel topK : ℕ) (queryVec : Vec)
    (domain : String) (s : KStore) :
    queryKnowledgeTree r1 fuel queryVec domain topK s
      = queryKnowledgeTree r2 fuel queryVec domain topK s := rfl

/-- C2: the claim says `searchChunks` materialises chunks for every
candidate file whose chunk count is zero and updates its `chunkCount`; in
the source `ensureChunksExist` is disabled (its body is
`console.log(...); return;` with a TODO), so it is the identity on the
store: for the candidate file 7 with chunk count 0, no chunk row is created
and the chunk count stays 0. -/
theorem c2_ensure_chunks_is_noop :
    (∀ (fileIds : List ℕ) (st : Store), ensureChunksExist fileIds st = st)
    ∧ ensureChunksExist [7] c2Store = c2Store
    ∧ c2Store.files.map (fun f => f.chunkCount) = [0]
    ∧ (ensureChunksExist [7] c2Store).chunks.filter (fun ch => ch.fileId == 7) = [] :=
  ⟨fun _ _ => rfl, rfl, rfl, rfl⟩

/-- C1: the incremental path does NOT restore the folder-embedding
invariant.  `updateFolderEmbeddings` selects the folder's files with
`eq(semanticFiles.path, folderPath)`, which compares each file's own path
against the folder's path and therefore never matches; on the store where
file `/root/a.txt` was just added to folder `/root`, the call leaves the
store unchanged, so the folder keeps its stale zero embedding even though
the normalised mean of its current children's embeddings is the (nonzero)
unit vector. -/
theorem c1_update_folder_embeddings_bug :
    updateFolderEmbeddings sqrtOne ["/root"] c1Store = c1Store
    ∧ specFolderChildrenEmbeddings c1Store c1Folder = [unitVec 1]
    ∧ c1Store.folders.map (fun fo => fo.embedding) = [some zeroVec]
    ∧ meanPool sqrtOne [unitVec 1] ≠ zeroVec := by
  refine ⟨rfl, rfl, rfl, ?_⟩
  have hval : meanPool sqrtOne [unitVec 1] 0 = 1 := by
    unfold meanPool
    norm_num [sqrtOne, meanVec_singleton, unitVec]
  intro h
  rw [h] at hval
  exact absurd hval (by norm_num [zeroVec])

/-- C10: `meanPool` of an empty list is the all-zero vector; for a
non-empty list, whenever `sqrtf` returns the exact non-negative square root
of the mean's squared norm and the mean is non-zero, the result is the mean
scaled by that root and has unit (squared) length; consequently a folder
indexed with no files and no indexed subfolders is persisted with the zero
embedding, whose cosine similarity to every query vector is 0. -/
theorem c10_meanpool_empty_and_unit :
    (∀ sqrtf : ℚ → ℚ, meanPool sqrtf [] = zeroVec)
    ∧ (∀ (sqrtf : ℚ → ℚ) (es : List Vec),
        es ≠ [] →
        0 ≤ sqrtf (sumSq (meanVec es)) →
        sqrtf (sumSq (meanVec es)) * sqrtf (sumSq (meanVec es)) = sumSq (meanVec es) →
        meanVec es ≠ zeroVec →
        meanPool sqrtf es = (fun i => meanVec es i / sqrtf (sumSq (meanVec es)))
          ∧ sumSq (meanPool sqrtf es) = 1)
    ∧ (∀ (sqrtf : ℚ → ℚ) (name : String) (depth : ℕ),
        skipFolder name = false → depth ≤ INDEXER_MAX_DEPTH →
        indexFolder sqrtf (FSDir.mk name [] []) depth
          = some ([⟨name, depth, zeroVec, 0⟩], zeroVec))
    ∧ (∀ q : Vec, cosineSimilarity q zeroVec = 0) := by
  refine ⟨fun sqrtf => by simp [meanPool], ?_, ?_, ?_⟩
  · intro sqrtf es hne hnonneg hroot hmean
    have hlen : ¬(es.length = 0) := by simpa [List.length_eq_zero] using hne
    have hj : ∃ j, meanVec es j ≠ 0 := by
      by_contra hall
      push_neg at hall
      exact hmean (funext fun j => hall j)
    obtain ⟨j, hj⟩ := hj
    have hpos : 0 < sumSq (meanVec es) := by
      rw [sumSq]
      exact Finset.sum_pos' (fun i _ => mul_self_nonneg _)
        ⟨j, Finset.mem_univ j, mul_self_pos.mpr hj⟩
    have hcne : sqrtf (sumSq (meanVec es)) ≠ 0 := by
      intro h0
      rw [h0, mul_zero] at hroot
      exact absurd hroot.symm (ne_of_gt hpos)
    have hcpos : 0 < sqrtf (sumSq (meanVec es)) := lt_of_le_of_ne hnonneg (Ne.symm hcne)
    have h1 : meanPool sqrtf es
        = (fun i => meanVec es i / sqrtf (sumSq (meanVec es))) := by
      rw [meanPool, if_neg hlen, if_pos hcpos]
    refine ⟨h1, ?_⟩
    rw [h1]
    calc sumSq (fun i => meanVec es i / sqrtf (sumSq (meanVec es)))
        = ∑ i, (meanVec es i * meanVec es i)
            / (sqrtf (sumSq (meanVec es)) * sqrtf (sumSq (meanVec es))) := by
          rw [sumSq]
          exact Finset.sum_congr rfl (fun i _ => div_mul_div_comm _ _ _ _)
      _ = (∑ i, meanVec es i * meanVec es i)
            / (sqrtf (sumSq (meanVec es)) * sqrtf (sumSq (meanVec es))) := by
          rw [Finset.sum_div]
      _ = sumSq (meanVec es) / sumSq (meanVec es) := by rw [hroot, sumSq]
      _ = 1 := div_self (ne_of_gt hpos)
  · intro sqrtf name depth hskip hdepth
    rw [indexFolder, if_neg (not_lt.mpr hdepth), if_neg (by simp [hskip])]
    simp [indexSubdirs, visibleFiles, meanPool]
  · intro q
    exact dotProduct_zero_right q

/-- C10 witness: at the concrete input `[unitVec 1]` with the exact root
function `sqrtOne`, the hypotheses of the unit-length part hold and the
pooled vector has squared norm 1. -/
theorem c10_meanpool_witness :
    ([unitVec 1] : List Vec) ≠ [] ∧ sumSq (meanPool sqrtOne [unitVec 1]) = 1 := by
  refine ⟨by simp, ?_⟩
  exact (c10_meanpool_empty_and_unit.2.1 sqrtOne [unitVec 1] (by simp)
    (by norm_num [sqrtOne])
    (by rw [meanVec_singleton, sumSq_unitVec]; norm_num [sqrtOne])
    (by
      rw [meanVec_singleton]
      intro h
      have h0 := congrFun h 0
      simp [unitVec, zeroVec] at h0)).2

/-- C8: when the number of items is at most the requested cluster count,
`kMeansClustering` returns (without erring — it is a total function here)
one singleton cluster per item, in input order, each centroid being the
item's own embedding. -/
theorem c8_kmeans_degenerate (rng : ℕ → ℕ) (sqrtf : ℚ → ℚ) (embeddings : List Vec)
    (k maxIterations : ℕ) (h : embeddings.length ≤ k) :
    (kMeansClustering rng sqrtf embeddings k maxIterations).length = embeddings.length
    ∧ (∀ (i : ℕ) (e : Vec), embeddings[i]? = some e →
        (kMeansClustering rng sqrtf embeddings k maxIterations)[i]?
          = some ⟨e, [i]⟩) := by
  constructor
  · rw [kMeansClustering, if_pos h]
    simp
  · intro i e he
    rw [kMeansClustering, if_pos h]
    simp [List.getElem?_map, List.getElem?_enum, he]

/-- C8 witness: one embedding clustered with k = 2 yields the singleton
cluster of that embedding at index 0. -/
theorem c8_kmeans_witness :
    c8Embeddings.length ≤ 2
    ∧ (kMeansClustering (fun _ => 0) sqrtOne c8Embeddings 2 20)[0]?
        = some ⟨unitVec 1, [0]⟩ :=
  ⟨by simp [c8Embeddings],
   (c8_kmeans_degenerate (fun _ => 0) sqrtOne c8Embeddings 2 20
     (by simp [c8Embeddings])).2 0 (unitVec 1) rfl⟩

/-- C5: the router's hybrid score of a file with a stored filename
embedding equals `0.35·filename + 0.35·content + 0.30·keyword` when a
content embedding is stored and `0.6·filename + 0.4·keyword` otherwise,
where the filename and content scores are the dot products of the query
embedding with the stored embeddings and the keyword score is the fraction
of extracted query keywords occurring as substrings of the lowercased file
path (0 when the query has no keywords). -/
theorem c5_hybrid_score_formula (queryVec : Vec) (query : String) (f : SFile) (fe : Vec)
    (hfe : f.embedding = some fe) :
    (∀ ce, f.contentEmbedding = some ce →
      (fileScores queryVec (extractKeywords query) f).score
        = 0.35 * dotProduct queryVec fe + 0.35 * dotProduct queryVec ce
          + 0.30 * specKeywordFraction query f.path)
    ∧ (f.contentEmbedding = none →
      (fileScores queryVec (extractKeywords query) f).score
        = 0.6 * dotProduct queryVec fe + 0.4 * specKeywordFraction query f.path) := by
  have hkw : calculateKeywordScore f.path (extractKeywords query)
      = specKeywordFraction query f.path := by
    by_cases hk : (extractKeywords query).length = 0
    · simp [calculateKeywordScore, specKeywordFraction, hk, List.length_eq_zero.mp hk]
    · have hne : (extractKeywords query).isEmpty = false := by
        rcases List.length_eq_zero.not.mp hk with _
        cases hcase : (extractKeywords query).isEmpty
        · rfl
        · exact absurd (List.length_eq_zero.mpr (List.isEmpty_iff.mp hcase)) hk
      simp [calculateKeywordScore, specKeywordFraction, hk, hne,
        List.countP_eq_length_filter]
  constructor
  · intro ce hce
    simp [fileScores, hfe, hce, FILENAME_WEIGHT, CONTENT_WEIGHT, KEYWORD_WEIGHT,
      cosineSimilarity, hkw]
  · intro hce
    simp [fileScores, hfe, hce, cosineSimilarity, hkw]

/-- C5 witness: the formula evaluated at a concrete file with a filename
embedding and no content embedding. -/
theorem c5_hybrid_score_witness :
    c5File.embedding = some (unitVec 1)
    ∧ c5File.contentEmbedding = none
    ∧ (fileScores (unitVec 1) (extractKeywords "budget") c5File).score
        = 0.6 * dotProduct (unitVec 1) (unitVec 1)
          + 0.4 * specKeywordFraction "budget" c5File.path :=
  ⟨rfl, rfl, (c5_hybrid_score_formula (unitVec 1) "budget" c5File (unitVec 1) rfl).2 rfl⟩

/-- Lookup lemma: `storedMap.get` on a stored row's own path returns that row (stored
paths are unique DB keys). -/
theorem lookupStored_of_mem (stored : List StoredStat)
    (hsn : (stored.map (fun s => s.path)).Nodup) (s : StoredStat) (hs : s ∈ stored) :
    lookupStored stored s.path = some s := by
  induction stored with
  | nil => cases hs
  | cons t ts ih =>
    rw [List.map_cons, List.nodup_cons] at hsn
    rcases List.mem_cons.mp hs with rfl | hmem
    · simp [lookupStored]
    · have hne : (t.path == s.path) = false := by
        rw [beq_eq_false_iff_ne]
        intro he
        exact hsn.1 (he ▸ List.mem_map_of_mem (fun s => s.path) hmem)
      rw [lookupStored, List.find?_cons_of_neg _ (by simp [hne])]
      exact ih hsn.2 hmem

/-- C6: after the incremental scan diff, a stored file (still on disk) is
classified as updated exactly when the stored and on-disk modification
times differ after truncation to whole seconds; on-disk paths absent from
the store are classified added; stored paths absent from disk are
classified removed; and whenever the change count exceeds half the stored
file count, `indexFromRoot` chooses a full reindex over the incremental
path. -/
theorem c6_change_detection (current : List CurrentStat) (stored : List StoredStat)
    (hcn : (current.map (fun c => c.path)).Nodup)
    (hsn : (stored.map (fun s => s.path)).Nodup) :
    (∀ c ∈ current, ∀ s ∈ stored, c.path = s.path →
      (c.path ∈ toUpdateOf current stored
        ↔ truncToSeconds (storedMtime s) ≠ truncToSeconds c.mtimeMs))
    ∧ (∀ c ∈ current,
        (c.path ∈ toAddOf current stored ↔ ∀ s ∈ stored, s.path ≠ c.path))
    ∧ (∀ s ∈ stored,
        (s.path ∈ toRemoveOf current stored ↔ ∀ c ∈ current, c.path ≠ s.path))
    ∧ ((stored.length : ℚ) * 0.5 < (changeCount current stored : ℚ) →
        decideIndexAction current stored = .fullReindex) := by
  refine ⟨?_, ?_, ?_, ?_⟩
  · intro c hc s hs hps
    have hlook : lookupStored stored c.path = some s := by
      rw [hps]
      exact lookupStored_of_mem stored hsn s hs
    constructor
    · intro hmem
      rw [toUpdateOf] at hmem
      rcases List.mem_map.mp hmem with ⟨c', hc', hpath⟩
      rcases List.mem_filter.mp hc' with ⟨hc'mem, hpred⟩
      have hcc : c' = c :=
        List.inj_on_of_nodup_map hcn hc'mem hc hpath
      subst hcc
      rw [hlook] at hpred
      simpa using hpred
    · intro hne
      rw [toUpdateOf]
      refine List.mem_map.mpr ⟨c, List.mem_filter.mpr ⟨hc, ?_⟩, rfl⟩
      rw [hlook]
      simpa using hne
  · intro c hc
    constructor
    · intro hmem
      rcases List.mem_map.mp hmem with ⟨c', hc', hpath⟩
      rcases List.mem_filter.mp hc' with ⟨_, hpred⟩
      rw [Option.isNone_iff_eq_none] at hpred
      rw [lookupStored, List.find?_eq_none] at hpred
      intro s hs
      have := hpred s hs
      rw [hpath] at this
      simpa using this
    · intro hall
      refine List.mem_map.mpr ⟨c, List.mem_filter.mpr ⟨hc, ?_⟩, rfl⟩
      rw [Option.isNone_iff_eq_none, lookupStored, List.find?_eq_none]
      intro s hs
      simpa using (hall s hs)
  · intro s hs
    constructor
    · intro hmem
      rcases List.mem_map.mp hmem with ⟨s', hs', hpath⟩
      rcases List.mem_filter.mp hs' with ⟨_, hpred⟩
      intro c hc
      rw [Bool.not_eq_eq_eq_not, Bool.not_true, currentHas, List.any_eq_false] at hpred
      have := hpred c hc
      rw [hpath] at this
      simpa using this
    · intro hall
      refine List.mem_map.mpr ⟨s, List.mem_filter.mpr ⟨hs, ?_⟩, rfl⟩
      rw [Bool.not_eq_eq_eq_not, Bool.not_true, currentHas, List.any_eq_false]
      intro c hc
      simpa using (hall c hc)
  · intro hlt
    have hccpos : changeCount current stored ≠ 0 := by
      intro h0
      rw [h0] at hlt
      simp only [Nat.cast_zero] at hlt
      have h2 : (0 : ℚ) ≤ (stored.length : ℚ) * 0.5 := by positivity
      exact absurd hlt (not_lt.mpr h2)
    rw [decideIndexAction, if_neg hccpos, if_pos (Or.inl hlt)]

/-- C6 witness: two stored rows, one modified on disk (7 s vs 5 s) and one
removed — 2 changes exceed half of 2 stored files, so a full reindex is
chosen. -/
theorem c6_change_detection_witness :
    (c6Current.map (fun c => c.path)).Nodup
    ∧ (c6Stored.map (fun s => s.path)).Nodup
    ∧ decideIndexAction c6Current c6Stored = .fullReindex := by
  refine ⟨by simp [c6Current], by simp [c6Stored], ?_⟩
  refine (c6_change_detection c6Current c6Stored (by simp [c6Current])
    (by simp [c6Stored])).2.2.2 ?_
  have hcc : changeCount c6Current c6Stored = 2 := rfl
  have hlen : c6Stored.length = 2 := rfl
  rw [hcc, hlen]
  norm_num

/-- C7: `addItem` on a domain with a non-empty tree inserts the item at the
leaf reached by the greedy descent, and afterwards only that leaf's record
changes: its embedding is the mean pool of all its current member items and
its item count is their number; the number of stored nodes is unchanged, no
node id is allocated, and every other node's record is untouched — even
when the leaf's member count exceeds `MAX_LEAF_SIZE` (that branch of the
source only logs). -/
theorem c7_add_item_frame (sqrtf : ℚ → ℚ) (fuel : ℕ) (emb : Vec)
    (domain content sourceType : String) (s : KStore) (leaf : KNode)
    (hroots : (rootsOf s domain).isEmpty = false)
    (hdesc : descendToLeaf emb s fuel (rootsOf s domain) = some leaf) :
    ((addItem sqrtf fuel emb domain content sourceType s).map KStore.items
       = some (s.items ++ [⟨leaf.id, domain, content, emb, sourceType⟩]))
    ∧ ((addItem sqrtf fuel emb domain content sourceType s).map
         (fun t => t.nodes.length) = some s.nodes.length)
    ∧ ((addItem sqrtf fuel emb domain content sourceType s).map KStore.nextNodeId
         = some s.nextNodeId)
    ∧ (∀ t, addItem sqrtf fuel emb domain content sourceType s = some t →
        ∀ n ∈ s.nodes, n.id ≠ leaf.id → n ∈ t.nodes)
    ∧ (∀ t, addItem sqrtf fuel emb domain content sourceType s = some t →
        ∀ n ∈ t.nodes, n.id = leaf.id →
          n.embedding
              = meanPool sqrtf ((itemsOfNode t leaf.id).map (fun i => i.embedding))
            ∧ n.itemCount = (itemsOfNode t leaf.id).length) := by
  have hif : ((rootsOf s domain).isEmpty = true) = False := by simp [hroots]
  refine ⟨?_, ?_, ?_, ?_, ?_⟩
  all_goals simp only [addItem, hif, if_false, hdesc]
  · simp
  · simp
  · simp
  · intro t ht n hn hne
    rw [Option.some.injEq] at ht
    subst ht
    exact List.mem_map.mpr ⟨n, hn, by simp [hne]⟩
  · intro t ht n hn hid
    rw [Option.some.injEq] at ht
    subst ht
    rcases List.mem_map.mp hn with ⟨m, hm, hfeq⟩
    by_cases hmid : m.id = leaf.id
    · rw [if_pos hmid] at hfeq
      subst hfeq
      exact ⟨rfl, rfl⟩
    · rw [if_neg hmid] at hfeq
      subst hfeq
      exact absurd hid hmid

/-- C7 witness: adding an item to a store whose `personal` tree is a single
root leaf keeps the node count and appends exactly the new item row. -/
theorem c7_add_item_witness :
    (rootsOf c7Store "personal").isEmpty = false
    ∧ (addItem sqrtOne 1 (unitVec 1) "personal" "enjoys tea" "user" c7Store).map
        (fun t => t.nodes.length) = some c7Store.nodes.length
    ∧ (addItem sqrtOne 1 (unitVec 1) "personal" "enjoys tea" "user" c7Store).map
        KStore.items
        = some (c7Store.items
            ++ [⟨c7Root.id, "personal", "enjoys tea", unitVec 1, "user"⟩]) := by
  have hroots : (rootsOf c7Store "personal").isEmpty = false := rfl
  have hdesc : descendToLeaf (unitVec 1) c7Store 1 (rootsOf c7Store "personal")
      = some c7Root := rfl
  exact ⟨hroots,
    (c7_add_item_frame sqrtOne 1 (unitVec 1) "personal" "enjoys tea" "user"
      c7Store c7Root hroots hdesc).2.1,
    (c7_add_item_frame sqrtOne 1 (unitVec 1) "personal" "enjoys tea" "user"
      c7Store c7Root hroots hdesc).1⟩

/-- C4 counterexample: two sibling folders score 1/10 and 3/100 — within
the 0.15 beam tolerance of each other (and both in the top 3 by rank,
there being only two) — yet only the best sibling is placed in the next
frontier, because the other falls below the 0.05 folder threshold and is
filtered out after the tolerance selection. -/
theorem c4_beam_tolerance_counterexample :
    scoreChildFolders c4Query [] [c4FolderA, c4FolderB]
      = [(c4FolderA, 1/10), (c4FolderB, 3/100)]
    ∧ scoreFolder c4Query [] c4FolderA - BEAM_TOLERANCE
        ≤ scoreFolder c4Query [] c4FolderB
    ∧ selectBeam 2 (scoreChildFolders c4Query [] [c4FolderA, c4FolderB])
        = [(c4FolderA, 1/10)]
    ∧ (c4FolderB, scoreFolder c4Query [] c4FolderB)
        ∉ selectBeam 2 (scoreChildFolders c4Query [] [c4FolderA, c4FolderB]) := by
  have hsA : scoreFolder c4Query [] c4FolderA = 1 / 10 := by
    norm_num [scoreFolder, c4FolderA, c4Query, cosineSimilarity, dotProduct_unitVec_left,
      unitVec_zero, calculateKeywordScore, FILENAME_WEIGHT, CONTENT_WEIGHT, KEYWORD_WEIGHT]
  have hsB : scoreFolder c4Query [] c4FolderB = 3 / 100 := by
    norm_num [scoreFolder, c4FolderB, c4Query, cosineSimilarity, dotProduct_unitVec_left,
      unitVec_zero, calculateKeywordScore, FILENAME_WEIGHT, CONTENT_WEIGHT, KEYWORD_WEIGHT]
  have hlist : scoreChildFolders c4Query [] [c4FolderA, c4FolderB]
      = [(c4FolderA, 1/10), (c4FolderB, 3/100)] := by
    simp [scoreChildFolders, hsA, hsB]
  have hsorted : sortByScoreDesc (fun p => p.2)
      [(c4FolderA, (1/10 : ℚ)), (c4FolderB, 3/100)]
      = [(c4FolderA, 1/10), (c4FolderB, 3/100)] := by
    norm_num [sortByScoreDesc, insertDesc]
  have hsel : selectBeam 2 (scoreChildFolders c4Query [] [c4FolderA, c4FolderB])
      = [(c4FolderA, 1/10)] := by
    rw [hlist]
    simp only [selectBeam, hsorted]
    norm_num [List.enum, List.enumFrom, BEAM_WIDTH, BEAM_TOLERANCE, FOLDER_THRESHOLD]
  refine ⟨hlist, by rw [hsA, hsB]; norm_num [BEAM_TOLERANCE], hsel, ?_⟩
  rw [hsel, hsB]
  intro hmem
  rcases List.mem_singleton.mp hmem with heq
  have := congrArg (fun p => p.1.id) heq
  simp [c4FolderA, c4FolderB] at this

/-- C4 (amended): during beam expansion, every child folder whose score is
within the beam tolerance of the best sibling's score AND at least the
folder activation threshold (0.05) is placed in the next beam frontier,
even when it is not among the top `BEAM_WIDTH` children by raw rank; an
in-tolerance sibling below the threshold is dropped (unless the folder has
exactly one child). -/
theorem c4_beam_tolerance_above_threshold (queryVec : Vec) (keywords : List String)
    (children : List SFolder) (c : SFolder)
    (hc : c ∈ children)
    (htol : ∀ b ∈ children, scoreFolder queryVec keywords b - BEAM_TOLERANCE
              ≤ scoreFolder queryVec keywords c)
    (hthr : FOLDER_THRESHOLD ≤ scoreFolder queryVec keywords c) :
    (c, scoreFolder queryVec keywords c)
      ∈ selectBeam children.length (scoreChildFolders queryVec keywords children) := by
  have hmem : (c, scoreFolder queryVec keywords c)
      ∈ scoreChildFolders queryVec keywords children :=
    List.mem_map.mpr ⟨c, hc, rfl⟩
  have hms : (c, scoreFolder queryVec keywords c)
      ∈ sortByScoreDesc (fun p => p.2) (scoreChildFolders queryVec keywords children) :=
    (mem_sortByScoreDesc _ _ _).mpr hmem
  cases hs : sortByScoreDesc (fun p => p.2) (scoreChildFolders queryVec keywords children) with
  | nil => rw [hs] at hms; cases hms
  | cons best tl =>
    have hbest_mem : best
        ∈ sortByScoreDesc (fun p => p.2) (scoreChildFolders queryVec keywords children) := by
      rw [hs]; exact List.mem_cons_self _ _
    have hbest_scored : best ∈ scoreChildFolders queryVec keywords children :=
      (mem_sortByScoreDesc _ _ _).mp hbest_mem
    rcases List.mem_map.mp hbest_scored with ⟨b, hb, hbeq⟩
    have htolc : best.2 - BEAM_TOLERANCE ≤ scoreFolder queryVec keywords c := by
      rw [← hbeq]
      exact htol b hb
    have hx : (c, scoreFolder queryVec keywords c) ∈ best :: tl := hs ▸ hms
    simp only [selectBeam, hs]
    have hsel : (c, scoreFolder queryVec keywords c)
        ∈ ((best :: tl).enum.filter
            (fun p => decide (p.1 < BEAM_WIDTH)
              || decide (best.2 - BEAM_TOLERANCE ≤ p.2.2))).map Prod.snd :=
      mem_map_snd_filter_enum _ hx (fun i => by simp [htolc])
    have hvalid : (c, scoreFolder queryVec keywords c)
        ∈ (((best :: tl).enum.filter
            (fun p => decide (p.1 < BEAM_WIDTH)
              || decide (best.2 - BEAM_TOLERANCE ≤ p.2.2))).map Prod.snd).filter
          (fun p => decide (FOLDER_THRESHOLD ≤ p.2)
            || decide (children.length = 1)) :=
      List.mem_filter.mpr ⟨hsel, by simp [hthr]⟩
    rw [if_neg (by rw [List.isEmpty_iff]; exact List.ne_nil_of_mem hvalid)]
    exact hvalid

/-- C4 witness: two siblings scoring 1/10 and 7/80 — within tolerance of
each other and both above the folder threshold — are both placed in the
next frontier. -/
theorem c4_beam_tolerance_witness :
    c4wFolderB ∈ [c4wFolderA, c4wFolderB]
    ∧ (c4wFolderB, scoreFolder c4Query [] c4wFolderB)
        ∈ selectBeam ([c4wFolderA, c4wFolderB]).length
            (scoreChildFolders c4Query [] [c4wFolderA, c4wFolderB]) := by
  have hsA : scoreFolder c4Query [] c4wFolderA = 1 / 10 := by
    norm_num [scoreFolder, c4wFolderA, c4Query, cosineSimilarity, dotProduct_unitVec_left,
      unitVec_zero, calculateKeywordScore, FILENAME_WEIGHT, CONTENT_WEIGHT, KEYWORD_WEIGHT]
  have hsB : scoreFolder c4Query [] c4wFolderB = 7 / 80 := by
    norm_num [scoreFolder, c4wFolderB, c4Query, cosineSimilarity, dotProduct_unitVec_left,
      unitVec_zero, calculateKeywordScore, FILENAME_WEIGHT, CONTENT_WEIGHT, KEYWORD_WEIGHT]
  refine ⟨by simp, c4_beam_tolerance_above_threshold c4Query [] _ c4wFolderB (by simp) ?_ ?_⟩
  · intro b hb
    rcases List.mem_cons.mp hb with rfl | hb
    · rw [hsA, hsB]; norm_num [BEAM_TOLERANCE]
    · rcases List.mem_singleton.mp hb with rfl
      rw [hsB]; norm_num [BEAM_TOLERANCE]
  · rw [hsB]; norm_num [FOLDER_THRESHOLD]

/-- C3 counterexample: with a file-type filter that matches nothing and NO
date-range constraint, `findFilesWithFilters` returns the empty list even
though the fully unfiltered scoring pass over all indexed files would
return a result — the router's only relaxation is dropping the date
constraint; no fully unfiltered fallback exists. -/
theorem c3_no_unfiltered_fallback_counterexample :
    findFilesWithFilters c3Embed "/home/u" 0 c3Filters c3Store = []
    ∧ specUnfilteredPass c3Embed c3Filters.query c3Store ≠ [] := by
  constructor
  · rfl
  · have hkw : calculateKeywordScore "/home/u/x/budget.txt" (extractKeywords "budget")
        = 1 := by
      simp only [calculateKeywordScore]
      rw [if_neg (by decide)]
      have hc : (extractKeywords "budget").countP
          (fun k => stringIncludes (toLowerStr "/home/u/x/budget.txt") k) = 1 := rfl
      have hl : (extractKeywords "budget").length = 1 := rfl
      rw [hc, hl]
      norm_num
    have hfs : (fileScores (unitVec 1) (extractKeywords "budget") c3File).score = 1 := by
      simp only [fileScores, c3File]
      rw [hkw]
      norm_num [cosineSimilarity, dotProduct_unitVec_left, unitVec_zero]
    have hq : c3Filters.query = "budget" := rfl
    rw [hq]
    have hr : (mkFileResult (c3Embed "budget") (extractKeywords "budget") c3File).score
        = 1 := by
      simpa [mkFileResult, c3Embed] using hfs
    simp only [specUnfilteredPass, scoreAndRank, c3Store, List.map_cons, List.map_nil]
    have hsort : sortByScoreDesc (fun r : FileResult => r.score)
        [mkFileResult (c3Embed "budget") (extractKeywords "budget") c3File]
        = [mkFileResult (c3Embed "budget") (extractKeywords "budget") c3File] := rfl
    rw [hsort, List.filter_cons]
    rw [if_pos (by rw [hr]; norm_num [MIN_RESULT_SCORE])]
    simp

/-- C3 (amended): when the type/location/date pre-filtering yields zero
candidates, the router re-runs the pre-filtering without the date
constraint only if a date-range constraint was in effect; when no date
constraint was supplied (or, per the code path, the relaxed filtering is
still empty) the call returns the empty list — there is no fully
unfiltered fallback pass. -/
theorem c3_relaxation_amended (embedFn : String → Vec) (home : String) (nowMs : ℤ)
    (filters : SearchFilters) (st : Store)
    (hempty : applyDateFilter (dateCutoffOf nowMs filters.date_range)
        (applyLocationFilter (locationPathOf home filters.location)
          (applyTypeFilter (allowedExtensionsOf filters.file_types) st.files))
        = []) :
    (dateCutoffOf nowMs filters.date_range = none →
      findFilesWithFilters embedFn home nowMs filters st = [])
    ∧ (∀ dc, dateCutoffOf nowMs filters.date_range = some dc →
        findFilesWithFilters embedFn home nowMs filters st
          = (if (applyLocationFilter (locationPathOf home filters.location)
                  (applyTypeFilter (allowedExtensionsOf filters.file_types) st.files)).isEmpty
             then []
             else scoreAndRank embedFn filters.query
               (applyLocationFilter (locationPathOf home filters.location)
                 (applyTypeFilter (allowedExtensionsOf filters.file_types) st.files)))) := by
  constructor
  · intro hdc
    rw [hdc] at hempty
    simp only [findFilesWithFilters, hdc, hempty]
    simp
  · intro dc hdc
    rw [hdc] at hempty
    simp only [findFilesWithFilters, hdc, hempty]
    simp

/-- C3 witness for the amended claim: the concrete no-date-constraint
instance with an all-excluding type filter returns the empty list. -/
theorem c3_relaxation_witness :
    applyDateFilter (dateCutoffOf 0 c3Filters.date_range)
        (applyLocationFilter (locationPathOf "/home/u" c3Filters.location)
          (applyTypeFilter (allowedExtensionsOf c3Filters.file_types) c3Store.files))
      = []
    ∧ findFilesWithFilters c3Embed "/home/u" 0 c3Filters c3Store = [] :=
  ⟨rfl, (c3_relaxation_amended c3Embed "/home/u" 0 c3Filters c3Store rfl).1 rfl⟩

end SmartDesk
